import Mathlib

/-!
# fabio: service monitor and SNI proxy

A shallow embedding of `registry/consul/service.go` and `proxy/tcp/sni_proxy.go`
together with the properties proved about them.

Conventions of the embedding

* A Go `string` is an immutable byte sequence; `==`, `<`, `+` and
  `strings.HasPrefix` all work byte by byte.  It is embedded as `List Nat`
  (one number per byte), ordered lexicographically.
* A Go `map` is embedded as an association list in which every key occurs at
  most once (`GoMap`).  The order of the list is not observable by the
  program: every place where Go iterates a map, or receives from a channel
  filled by concurrent workers, takes an explicit schedule.
* Functions of the repository that the embedded functions call but whose
  source is not part of the fragment (`routecmd.build`, `passingServices`,
  `clientHelloBufferSize`, `readServerName`, `WriteProxyHeader`) are
  parameters of the embedding; `copyBuffer` is modelled from the
  specification.
-/

namespace Fabio

/-- A Go string: its bytes. -/
abbrev GoString := List Nat

/-- The bytes of an ASCII literal. -/
def lit (s : String) : GoString := s.data.map Char.toNat

/-- Go `strings.HasPrefix(s, p)`. -/
def HasPrefix (s p : GoString) : Bool := p.isPrefixOf s

/-- Go `strings.Join(elems, sep)`. -/
def Join : List GoString → GoString → GoString
  | [], _ => []
  | [a], _ => a
  | a :: b :: rest, sep => a ++ sep ++ Join (b :: rest) sep

/-! ## Consul API records (the fields the program reads) -/

/-- The fields of `api.HealthCheck` used by the service monitor. -/
structure HealthCheck where
  Node : GoString
  CheckID : GoString
  Status : GoString
  ServiceID : GoString
  ServiceName : GoString
  ServiceTags : List GoString
  deriving DecidableEq, Repr

/-- The fields of `api.CatalogService` used by the service monitor. -/
structure CatalogService where
  Node : GoString
  ServiceID : GoString
  ServiceName : GoString
  ServiceAddress : GoString
  ServicePort : Nat
  ServiceTags : List GoString
  deriving DecidableEq, Repr

/-! ## checksWithTagPrefix -/

/-- The inner loop of `checksWithTagPrefix`: walk the tags of `c`; at the
first tag that starts with `pfx` append `c` to the result and `break`. -/
def tagLoop (pfx : GoString) (c : HealthCheck) :
    List GoString → List HealthCheck → List HealthCheck
  | [], acc => acc
  | t :: ts, acc =>
    if HasPrefix t pfx then acc ++ [c] else tagLoop pfx c ts acc

/-- One iteration of the outer loop of `checksWithTagPrefix`. -/
def checkStep (pfx : GoString) (acc : List HealthCheck) (c : HealthCheck) :
    List HealthCheck :=
  if c.CheckID = lit "serfHealth" ∨ c.CheckID = lit "_node_maintenance"
      ∨ HasPrefix c.CheckID (lit "_service_maintenance") = true then
    acc ++ [c]
  else
    tagLoop pfx c c.ServiceTags acc

/-- `checksWithTagPrefix(prefix, checks)`. -/
def checksWithTagPrefix (pfx : GoString) (checks : List HealthCheck) :
    List HealthCheck :=
  checks.foldl (checkStep pfx) []

/-- The retention predicate of the specification: a liveness check, or a
check one of whose service tags starts with the prefix. -/
def retained (pfx : GoString) (c : HealthCheck) : Bool :=
  decide (c.CheckID = lit "serfHealth") || decide (c.CheckID = lit "_node_maintenance")
    || HasPrefix c.CheckID (lit "_service_maintenance")
    || c.ServiceTags.any (fun t => HasPrefix t pfx)

/-! ## Go maps -/

/-- A Go map: an association list in which a key occurs at most once. -/
abbrev GoMap (κ ν : Type) := List (κ × ν)

/-- The comma-ok lookup `v, ok := m[k]`. -/
def GoMap.get? {κ ν : Type} [DecidableEq κ] : GoMap κ ν → κ → Option ν
  | [], _ => none
  | (k1, v) :: rest, k => if k1 = k then some v else GoMap.get? rest k

/-- The assignment `m[k] = v`: overwrite the entry of `k`, or add one. -/
def GoMap.set {κ ν : Type} [DecidableEq κ] : GoMap κ ν → κ → ν → GoMap κ ν
  | [], k, v => [(k, v)]
  | (k1, v1) :: rest, k, v =>
    if k1 = k then (k1, v) :: rest else (k1, v1) :: GoMap.set rest k v

/-! ## ServiceMonitor -/

/-- The fields of `config.Consul` read by the service monitor. -/
structure Consul where
  PollInterval : Nat
  RequireConsistent : Bool
  AllowStale : Bool
  TagPrefix : GoString
  ServiceStatus : List GoString
  ServiceMonitors : Int
  ChecksRequired : GoString

/-- The struct `ServiceMonitor` (the Consul client is the outside world and
is passed to each operation as the answers it gives). -/
structure ServiceMonitor where
  config : Consul
  dc : GoString
  strict : Bool

/-- `NewServiceMonitor(client, config, dc)`. -/
def NewServiceMonitor (config : Consul) (dc : GoString) : ServiceMonitor :=
  { config := config, dc := dc, strict := decide (config.ChecksRequired = lit "all") }

/-- The struct `api.QueryOptions` (the fields set by the monitor). -/
structure QueryOptions where
  RequireConsistent : Bool
  AllowStale : Bool
  WaitIndex : Nat
  deriving DecidableEq, Repr

/-- The struct `api.QueryMeta` (the field read by the monitor). -/
structure QueryMeta where
  LastIndex : Nat
  deriving DecidableEq, Repr

/-- The struct `routecmd` handed to `build`. -/
structure routecmd where
  svc : CatalogService
  env : GoMap GoString GoString
  pfx : GoString

/-- The answers of `client.Catalog().Service(name, "", q)`, per service name:
the instances, or an error. -/
abbrev Catalog := GoString → Except GoString (List CatalogService)

/-- The instance id `node + "." + serviceID`. -/
def instanceID (node serviceID : GoString) : GoString :=
  node ++ lit "." ++ serviceID

/-- One iteration of the loop of `serviceConfig` over the catalog answer. -/
def svcStep (w : ServiceMonitor) (build : routecmd → List GoString)
    (passing : GoMap GoString Bool) (config : List GoString) (svc : CatalogService) :
    List GoString :=
  match passing.get? (instanceID svc.Node svc.ServiceID) with
  | none => config
  | some _ =>
    config ++ build { svc := svc, env := [(lit "DC", w.dc)], pfx := w.config.TagPrefix }

/-- `w.serviceConfig(name, passing)`: the config lines of all good instances
of one service.  `build` is `routecmd.build`. -/
def serviceConfig (w : ServiceMonitor) (build : routecmd → List GoString)
    (catalog : Catalog) (name : GoString) (passing : GoMap GoString Bool) :
    List GoString :=
  if name = [] ∨ passing.length = 0 then []
  else
    match catalog name with
    | .error _ => []
    | .ok svcs => svcs.foldl (svcStep w build passing) []

/-- One iteration of the first loop of `makeConfig`: record the instance of
`check` under its service name. -/
def addCheck (m : GoMap GoString (GoMap GoString Bool)) (check : HealthCheck) :
    GoMap GoString (GoMap GoString Bool) :=
  let name := check.ServiceName
  let id := instanceID check.Node check.ServiceID
  let m1 := match m.get? name with
    | none => m.set name []
    | some _ => m
  m1.set name (((m1.get? name).getD []).set id true)

/-- The map from service name to the set of passing instance ids built by
the first loop of `makeConfig`. -/
def passingMap (checks : List HealthCheck) : GoMap GoString (GoMap GoString Bool) :=
  checks.foldl addCheck []

/-- Remove and return the element picked by the head of the schedule from the
pending list; `fuel` is the number of pending elements. -/
def deliverGo {α : Type} : Nat → List Nat → List α → List α
  | 0, _, _ => []
  | _, _, [] => []
  | fuel + 1, sched, x :: xs =>
    let k := sched.headD 0 % (xs.length + 1)
    ((x :: xs).getD k x) :: deliverGo fuel sched.tail ((x :: xs).eraseIdx k)

/-- The order in which the results of concurrently running workers arrive on
a channel: the workers are `pending`, and each number of `sched` picks which
of the workers still pending delivers next. -/
def deliver {α : Type} (sched : List Nat) (pending : List α) : List α :=
  deliverGo pending.length sched pending

/-- Go `sort.Sort(sort.Reverse(sort.StringSlice(config)))`.  The order on
strings is total and antisymmetric, so the sorted slice does not depend on
the algorithm; insertion sort stands for the library routine. -/
def sortReverse (config : List GoString) : List GoString :=
  config.insertionSort (fun a b => b ≤ a)

/-- The slice `config` gathered by the second loop of `makeConfig` from the
channel `cfgs`: one worker per entry of `m`, results received in the order
fixed by `sched`. -/
def gather (w : ServiceMonitor) (build : routecmd → List GoString) (catalog : Catalog)
    (sched : List Nat) (m : GoMap GoString (GoMap GoString Bool)) : List GoString :=
  (deliver sched m).foldl (fun config e => config ++ serviceConfig w build catalog e.1 e.2) []

/-- `w.makeConfig(checks)`.  The semaphore `sem` of size
`max(ServiceMonitors, 1)` only bounds how many workers run at once; every
interleaving it allows is a schedule `sched`. -/
def makeConfig (w : ServiceMonitor) (build : routecmd → List GoString) (catalog : Catalog)
    (sched : List Nat) (checks : List HealthCheck) : GoString :=
  Join (sortReverse (gather w build catalog sched (passingMap checks))) (lit "\n")

/-- What the outside world does during one iteration of the `Watch` loop:
the answer to the health query, the catalog answers, and the schedule of the
workers of `makeConfig`. -/
structure Round where
  health : Except GoString (List HealthCheck × QueryMeta)
  catalog : Catalog
  sched : List Nat

/-- The state of the `Watch` loop: the variable `lastIndex`, with the queries
issued so far and the values sent on `updates` so far. -/
structure WatchState where
  lastIndex : Nat
  queries : List QueryOptions
  updates : List GoString

/-- The query options `q` built at the top of an iteration of `Watch`. -/
def watchQuery (w : ServiceMonitor) (lastIndex : Nat) : QueryOptions :=
  if w.config.PollInterval ≠ 0 then
    { RequireConsistent := w.config.RequireConsistent, AllowStale := w.config.AllowStale,
      WaitIndex := 0 }
  else
    { RequireConsistent := w.config.RequireConsistent, AllowStale := w.config.AllowStale,
      WaitIndex := lastIndex }

/-- One iteration of the loop of `Watch`.  `passingServices` is the function
of that name of the package. -/
def watchStep (w : ServiceMonitor) (build : routecmd → List GoString)
    (passingServices : List HealthCheck → List GoString → Bool → List HealthCheck)
    (s : WatchState) (r : Round) : WatchState :=
  let q := watchQuery w s.lastIndex
  match r.health with
  | .error _ => { s with queries := s.queries ++ [q] }
  | .ok (checks, meta) =>
    let prefixedChecks := checksWithTagPrefix w.config.TagPrefix checks
    let passing := passingServices prefixedChecks w.config.ServiceStatus w.strict
    { lastIndex := meta.LastIndex,
      queries := s.queries ++ [q],
      updates := s.updates ++ [makeConfig w build r.catalog r.sched passing] }

/-- `w.Watch(updates)` run for the iterations `rounds`, from `lastIndex = 0`. -/
def Watch (w : ServiceMonitor) (build : routecmd → List GoString)
    (passingServices : List HealthCheck → List GoString → Bool → List HealthCheck)
    (rounds : List Round) : WatchState :=
  rounds.foldl (watchStep w build passingServices)
    { lastIndex := 0, queries := [], updates := [] }

/-- What the map built by the first loop of `makeConfig` holds after the
checks `checks` have been processed: one entry per service name, and under
each name the ids of the checks of that name. -/
def PassingInv (m : GoMap GoString (GoMap GoString Bool)) (checks : List HealthCheck) :
    Prop :=
  (m.map Prod.fst).Nodup
  ∧ (∀ name, name ∈ m.map Prod.fst ↔ ∃ c ∈ checks, c.ServiceName = name)
  ∧ (∀ name p, m.get? name = some p →
      ∀ id, id ∈ p.map Prod.fst ↔
        ∃ c ∈ checks, c.ServiceName = name ∧ instanceID c.Node c.ServiceID = id)

/-- The lines of service `name` in terms of the checks: nothing for the empty
name or a failed catalog query, else the lines built for the catalog
instances whose id is the id of a check of that service. -/
def linesOf (w : ServiceMonitor) (build : routecmd → List GoString) (catalog : Catalog)
    (checks : List HealthCheck) (name : GoString) : List GoString :=
  if name = [] then []
  else
    match catalog name with
    | .error _ => []
    | .ok svcs =>
      (svcs.filter (fun svc => checks.any (fun c =>
          decide (c.ServiceName = name)
            && decide (instanceID c.Node c.ServiceID = instanceID svc.Node svc.ServiceID)))).flatMap
        (fun svc => build { svc := svc, env := [(lit "DC", w.dc)], pfx := w.config.TagPrefix })

/-! ## Sample data for the worked instances -/

/-- A monitor with tag prefix `urlprefix-` in datacenter `dc1`. -/
def sampleMonitor : ServiceMonitor :=
  NewServiceMonitor
    { PollInterval := 0, RequireConsistent := true, AllowStale := false,
      TagPrefix := lit "urlprefix-", ServiceStatus := [lit "passing"],
      ServiceMonitors := 1, ChecksRequired := lit "one" }
    (lit "dc1")

/-- A stand-in for `routecmd.build`: one line per tag with the prefix, made
of the service name, the node and the tag without its prefix. -/
def sampleBuild (r : routecmd) : List GoString :=
  (r.svc.ServiceTags.filter (fun t => HasPrefix t r.pfx)).map
    (fun t => lit "route add " ++ r.svc.ServiceName ++ lit " " ++ t.drop r.pfx.length
                ++ lit " " ++ r.svc.Node)

/-- A passing service check of instance `id` of service `name` on `node`. -/
def sampleCheck (node id name : String) : HealthCheck :=
  { Node := lit node, CheckID := lit "service:" ++ lit id, Status := lit "passing",
    ServiceID := lit id, ServiceName := lit name,
    ServiceTags := [lit "urlprefix-foo.com/"] }

/-- A catalog instance `id` of service `name` on `node`. -/
def sampleInstance (node id name : String) : CatalogService :=
  { Node := lit node, ServiceID := lit id, ServiceName := lit name,
    ServiceAddress := lit "10.0.0.1", ServicePort := 8080,
    ServiceTags := [lit "urlprefix-foo.com/"] }

/-- A catalog that knows three instances of `svc` and one of `web`. -/
def sampleCatalog : Catalog := fun name =>
  if name = lit "svc" then
    .ok [sampleInstance "n1" "svc-1" "svc", sampleInstance "n2" "svc-2" "svc",
         sampleInstance "n3" "svc-3" "svc"]
  else if name = lit "web" then .ok [sampleInstance "n1" "web-1" "web"]
  else .error (lit "unknown service")

/-- A catalog whose only instance of `svc` is `b.c` on node `a`. -/
def collisionCatalog : Catalog := fun name =>
  if name = lit "svc" then .ok [sampleInstance "a" "b.c" "svc"]
  else .error (lit "unknown service")

/-! ## Watch: the quantities the specification speaks of -/

/-- The index returned by the health query of a round, if it succeeded. -/
def okIndex (r : Round) : Option Nat :=
  match r.health with
  | .ok (_, meta) => some meta.LastIndex
  | .error _ => none

/-- The `LastIndex` of the most recent successful answer among `rounds`,
0 if there is none. -/
def lastIndexAfter (rounds : List Round) : Nat :=
  ((rounds.filterMap okIndex).getLast?).getD 0

/-- The snapshot that a round with a successful answer gives rise to. -/
def snapshotOf (w : ServiceMonitor) (build : routecmd → List GoString)
    (passingServices : List HealthCheck → List GoString → Bool → List HealthCheck)
    (r : Round) : Option GoString :=
  match r.health with
  | .ok (checks, _) =>
    some (makeConfig w build r.catalog r.sched
      (passingServices (checksWithTagPrefix w.config.TagPrefix checks)
        w.config.ServiceStatus w.strict))
  | .error _ => none

/-- A round whose health query fails. -/
def failedRound : Round :=
  { health := .error (lit "connection refused"), catalog := sampleCatalog, sched := [] }

/-- A round whose health query returns one passing check at index `idx`. -/
def okRound (idx : Nat) : Round :=
  { health := .ok ([sampleCheck "n1" "svc-1" "svc"], { LastIndex := idx }),
    catalog := sampleCatalog, sched := [] }

/-- A stand-in for `passingServices`: the checks whose status is listed. -/
def samplePassing (checks : List HealthCheck) (status : List GoString) (_strict : Bool) :
    List HealthCheck :=
  checks.filter (fun c => decide (c.Status ∈ status))

/-! ## SNIProxy -/

/-- A metrics counter field: `none` is the nil interface, `some v` a counter
whose value is `v`. -/
abbrev Counter := Option Nat

/-- The guarded increment `if c != nil { c.Add(n) }`. -/
def addCounter (c : Counter) (n : Nat) : Counter :=
  match c with
  | none => none
  | some v => some (v + n)

/-- The fields of `route.Target` used by the proxy: `URL.Host`, `ProxyProto`
and the two byte counters. -/
structure Target where
  Host : GoString
  ProxyProto : Bool
  RxCounter : Counter
  TxCounter : Counter
  deriving DecidableEq, Repr

/-- The struct `SNIProxy` (without `DialTimeout`, which only bounds the time
the dial may take). -/
structure SNIProxy where
  Conn : Counter
  ConnFail : Counter
  Noroute : Counter
  Lookup : GoString → Option Target

/-- The value `io.EOF`. -/
def EOF : GoString := lit "EOF"

/-- What an upstream connection returned by a successful dial does.
`proxyHeader` is the outcome of `WriteProxyHeader(out, in)`: the bytes it
writes and its error, if any.  `helloWrite` is the outcome of
`out.Write(data)`: `none` when all of `data` is written, `some (k, e)` when
the write fails with `e` after `k` bytes.  `fromUpstream` are the bytes the
copy from `out` to `in` reads from `out`. -/
structure Upstream where
  proxyHeader : List Nat × Option GoString
  helloWrite : Option (Nat × GoString)
  fromUpstream : List Nat

/-- What the outside world does on one inbound connection.  `inbound` are
the bytes that arrive on `in` and are read through `tlsReader`; `readErr` is
the error a read gets when they are used up.  `accessDenied` answers
`t.AccessDeniedTCP(in)`, `dial` answers `net.DialTimeout("tcp", addr, _)`.
`fromClient` are the bytes the copy from `in` to `out` reads from `in`, and
`spliceErr` is the first value received from `errc`. -/
structure ConnEnv where
  inbound : List Nat
  readErr : GoString
  accessDenied : Target → Bool
  dial : GoString → Except GoString Upstream
  fromClient : List Nat
  spliceErr : Option GoString

/-- The value returned by `ServeTCP`: `nil`, an error, or a run-time panic. -/
inductive Ret where
  | nil
  | error (e : GoString)
  | panic
  deriving DecidableEq, Repr

/-- The observable outcome of one call of `ServeTCP`: the return value, the
counters of the proxy and of the selected target afterwards, the calls of
`Lookup` and of the dialer, the bytes written to `out` and to `in`, and
whether `in` and `out` were closed. -/
structure Served where
  ret : Ret
  Conn : Counter
  ConnFail : Counter
  Noroute : Counter
  target : Option Target
  lookups : List GoString
  dials : List GoString
  upstream : List Nat
  downstream : List Nat
  inClosed : Bool
  outClosed : Bool
  deriving DecidableEq, Repr

/-- Modelled from the spec: `copyBuffer(dst, src, c)`, whose source is not
part of the fragment.  It copies what it reads from `src` to `dst` and counts
the bytes into `c`.  `dst` holds the bytes already written to the
destination, `src` the bytes read; the result is the destination and the
counter afterwards. -/
def copyBuffer (dst src : List Nat) (c : Counter) : List Nat × Counter :=
  (dst ++ src, addCounter c src.length)

/-- The exit `if p.ConnFail != nil { p.ConnFail.Add(1) }; return err`. -/
def connFail (s : Served) (ret : Ret) : Served :=
  { s with ConnFail := addCounter s.ConnFail 1, ret := ret }

/-- The part of `ServeTCP` after a successful dial: `out` is open and is
closed on return; `data` are the bytes read from `in` so far. -/
def serveUpstream (env : ConnEnv) (s : Served) (t : Target) (out : Upstream)
    (data : List Nat) : Served :=
  let s := { s with outClosed := true }
  -- enable PROXY protocol support on outbound connection
  let hdr : List Nat × Option GoString := if t.ProxyProto then out.proxyHeader else ([], none)
  let s := { s with upstream := s.upstream ++ hdr.1 }
  match hdr.2 with
  | some e => connFail s (.error e)
  | none =>
    -- write the data already read from the connection
    match out.helloWrite with
    | some (k, e) => connFail { s with upstream := s.upstream ++ data.take k } (.error e)
    | none =>
      let n := data.length
      let s := { s with upstream := s.upstream ++ data }
      -- we have received the ClientHello already
      let rx := addCounter t.RxCounter n
      -- go cp(in, out, t.RxCounter)
      let toIn := copyBuffer s.downstream out.fromUpstream rx
      -- go cp(out, in, t.TxCounter)
      let toOut := copyBuffer s.upstream env.fromClient t.TxCounter
      let s := { s with
        downstream := toIn.1, upstream := toOut.1,
        target := some { t with RxCounter := toIn.2, TxCounter := toOut.2 } }
      match env.spliceErr with
      | some e => if e ≠ EOF then { s with ret := .error e } else { s with ret := .nil }
      | none => { s with ret := .nil }

/-- The part of `ServeTCP` after `readServerName` has returned `host, ok`. -/
def serveHost (p : SNIProxy) (env : ConnEnv) (s : Served) (data : List Nat)
    (host : GoString) (ok : Bool) : Served :=
  if !ok then connFail s .nil
  else if host = [] then connFail s .nil
  else
    let s := { s with lookups := s.lookups ++ [host] }
    match p.Lookup host with
    | none => { s with Noroute := addCounter s.Noroute 1, ret := .nil }
    | some t =>
      if env.accessDenied t then { s with ret := .nil }
      else
        let s := { s with dials := s.dials ++ [t.Host] }
        match env.dial t.Host with
        | .error e => connFail s (.error e)
        | .ok out => serveUpstream env s t out data

/-- The state of a call of `ServeTCP` after `p.Conn` has been counted. -/
def accepted (p : SNIProxy) : Served :=
  { ret := .nil, Conn := addCounter p.Conn 1, ConnFail := p.ConnFail, Noroute := p.Noroute,
    target := none, lookups := [], dials := [], upstream := [], downstream := [],
    inClosed := false, outClosed := false }

/-- The body of `ServeTCP` between the deferred `in.Close()` and the return.
`clientHelloBufferSize` and `readServerName` are the functions of those
names of the package. -/
def serveBody (p : SNIProxy)
    (clientHelloBufferSize : List Nat → Except GoString Int)
    (readServerName : List Nat → GoString × Bool)
    (env : ConnEnv) : Served :=
  let s := accepted p
  -- tlsReader.Peek(9)
  if env.inbound.length < 9 then connFail s (.error env.readErr)
  else
    match clientHelloBufferSize (env.inbound.take 9) with
    | .error e => connFail s (.error e)
    | .ok bufferSize =>
      -- make([]byte, bufferSize)
      if bufferSize < 0 then { s with ret := .panic }
      -- io.ReadFull(tlsReader, data)
      else if env.inbound.length < bufferSize.toNat then connFail s (.error env.readErr)
      else
        let data := env.inbound.take bufferSize.toNat
        -- data[5:]
        if data.length < 5 then { s with ret := .panic }
        else
          let sn := readServerName (data.drop 5)
          serveHost p env s data sn.1 sn.2

/-- `p.ServeTCP(in)`: the body, then the deferred `in.Close()`. -/
def ServeTCP (p : SNIProxy)
    (clientHelloBufferSize : List Nat → Except GoString Int)
    (readServerName : List Nat → GoString × Bool)
    (env : ConnEnv) : Served :=
  { serveBody p clientHelloBufferSize readServerName env with inClosed := true }

/-! ## Sample data for the worked instances of the proxy -/

/-- A stand-in for `clientHelloBufferSize`: the record must be a handshake
record (type 22); the size is the 5 bytes of the record header plus the
record length of bytes 3 and 4. -/
def sampleBufferSize (hdr : List Nat) : Except GoString Int :=
  if hdr.getD 0 0 ≠ 22 then .error (lit "not a TLS handshake")
  else .ok (5 + (hdr.getD 3 0 : Int) * 256 + (hdr.getD 4 0 : Int))

/-- A stand-in for `readServerName`: a client hello (type 1) whose body,
after the 4 bytes of the handshake header, is the server name. -/
def sampleServerName (hs : List Nat) : GoString × Bool :=
  if hs.getD 0 0 = 1 then (hs.drop 4, true) else ([], false)

/-- A record with the server name `foo` (12 bytes). -/
def helloFoo : List Nat := [22, 3, 1, 0, 7, 1, 0, 0, 3] ++ lit "foo"

/-- A record with the server name `bar`, for which there is no route. -/
def helloBar : List Nat := [22, 3, 1, 0, 7, 1, 0, 0, 3] ++ lit "bar"

/-- A record with an empty server name. -/
def helloNoName : List Nat := [22, 3, 1, 0, 4, 1, 0, 0, 0]

/-- A record whose handshake message is not a client hello. -/
def helloBad : List Nat := [22, 3, 1, 0, 4, 2, 0, 0, 0]

/-- A target without the PROXY protocol, both counters at 0. -/
def sampleTarget : Target :=
  { Host := lit "10.0.0.1:443", ProxyProto := false, RxCounter := some 0, TxCounter := some 0 }

/-- A proxy with all counters at 0 that routes `foo` to `sampleTarget`. -/
def sampleProxy : SNIProxy :=
  { Conn := some 0, ConnFail := some 0, Noroute := some 0,
    Lookup := fun host => if host = lit "foo" then some sampleTarget else none }

/-- A proxy that routes `foo` to a target with the PROXY protocol. -/
def proxyProtoProxy : SNIProxy :=
  { Conn := some 0, ConnFail := some 0, Noroute := some 0,
    Lookup := fun host =>
      if host = lit "foo" then some { sampleTarget with ProxyProto := true } else none }

/-- An upstream that accepts every write and sends 5 bytes. -/
def sampleUpstream : Upstream :=
  { proxyHeader := (lit "PROXY TCP4 1.2.3.4 5.6.7.8 1 2\r\n", none),
    helloWrite := none,
    fromUpstream := [1, 2, 3, 4, 5] }

/-- A connection on which the client sends `hello` and then 3 more bytes, the
dial succeeds and the splice ends with `io.EOF`. -/
def sampleEnv (hello : List Nat) : ConnEnv :=
  { inbound := hello, readErr := EOF, accessDenied := fun _ => false,
    dial := fun _ => .ok sampleUpstream, fromClient := [7, 8, 9], spliceErr := some EOF }

/-! ## Helper lemmas: checksWithTagPrefix -/

theorem tagLoop_eq (pfx : GoString) (c : HealthCheck) (ts : List GoString)
    (acc : List HealthCheck) :
    tagLoop pfx c ts acc
      = if ts.any (fun t => HasPrefix t pfx) then acc ++ [c] else acc := by
  induction ts with
  | nil => simp [tagLoop]
  | cons t ts ih =>
    by_cases h : HasPrefix t pfx = true
    · simp [tagLoop, h]
    · simp [tagLoop, h, ih]

theorem checkStep_eq (pfx : GoString) (acc : List HealthCheck) (c : HealthCheck) :
    checkStep pfx acc c = acc ++ (if retained pfx c then [c] else []) := by
  unfold checkStep retained
  by_cases h1 : c.CheckID = lit "serfHealth"
  · simp [h1]
  · by_cases h2 : c.CheckID = lit "_node_maintenance"
    · simp [h2]
    · by_cases h3 : HasPrefix c.CheckID (lit "_service_maintenance") = true
      · simp [h3]
      · simp only [h1, h2, h3, false_or, if_false, decide_False, Bool.false_or]
        rw [tagLoop_eq]
        by_cases h4 : (c.ServiceTags.any fun t => HasPrefix t pfx) = true
        · simp [h4]
        · simp [h4]

theorem foldl_checkStep (pfx : GoString) (checks acc : List HealthCheck) :
    checks.foldl (checkStep pfx) acc = acc ++ checks.filter (retained pfx) := by
  induction checks generalizing acc with
  | nil => simp
  | cons c cs ih =>
    rw [List.foldl_cons, ih, checkStep_eq]
    by_cases h : retained pfx c = true
    · simp [h, List.filter_cons]
    · simp [h, List.filter_cons]

/-! ## Helper lemmas: Go maps -/

theorem GoMap.get?_set_self {κ ν : Type} [DecidableEq κ] (m : GoMap κ ν) (k : κ) (v : ν) :
    (m.set k v).get? k = some v := by
  induction m with
  | nil => simp [GoMap.set, GoMap.get?]
  | cons e rest ih =>
    obtain ⟨k1, v1⟩ := e
    by_cases h : k1 = k
    · simp [GoMap.set, GoMap.get?, h]
    · simp [GoMap.set, GoMap.get?, h, ih]

theorem GoMap.get?_set_ne {κ ν : Type} [DecidableEq κ] (m : GoMap κ ν) (k j : κ) (v : ν)
    (h : k ≠ j) : (m.set k v).get? j = m.get? j := by
  induction m with
  | nil => simp [GoMap.set, GoMap.get?, h]
  | cons e rest ih =>
    obtain ⟨k1, v1⟩ := e
    by_cases h1 : k1 = k
    · subst h1
      simp [GoMap.set, GoMap.get?, h]
    · by_cases h2 : k1 = j
      · subst h2
        simp [GoMap.set, GoMap.get?, h1]
      · simp [GoMap.set, GoMap.get?, h1, h2, ih]

theorem GoMap.get?_isSome_iff {κ ν : Type} [DecidableEq κ] (m : GoMap κ ν) (k : κ) :
    (m.get? k).isSome = true ↔ k ∈ m.map Prod.fst := by
  induction m with
  | nil => simp [GoMap.get?]
  | cons e rest ih =>
    obtain ⟨k1, v1⟩ := e
    by_cases h : k1 = k
    · simp [GoMap.get?, h]
    · have h2 : ¬ k = k1 := fun e => h e.symm
      simp [GoMap.get?, h, h2, ih]

theorem GoMap.get?_eq_none_iff {κ ν : Type} [DecidableEq κ] (m : GoMap κ ν) (k : κ) :
    m.get? k = none ↔ k ∉ m.map Prod.fst := by
  rw [← GoMap.get?_isSome_iff]
  cases m.get? k <;> simp

theorem GoMap.keys_set {κ ν : Type} [DecidableEq κ] (m : GoMap κ ν) (k : κ) (v : ν) :
    (m.set k v).map Prod.fst
      = if k ∈ m.map Prod.fst then m.map Prod.fst else m.map Prod.fst ++ [k] := by
  induction m with
  | nil => simp [GoMap.set]
  | cons e rest ih =>
    obtain ⟨k1, v1⟩ := e
    by_cases h : k1 = k
    · simp [GoMap.set, h]
    · have h2 : ¬ k = k1 := fun e => h e.symm
      by_cases h3 : k ∈ rest.map Prod.fst
      · simp only [GoMap.set, h, if_false, List.map_cons, ih, h3, if_true, List.mem_cons,
          or_true]
      · simp only [GoMap.set, h, if_false, List.map_cons, ih, h3, List.mem_cons, h2,
          or_self, List.cons_append]

theorem GoMap.mem_keys_set {κ ν : Type} [DecidableEq κ] (m : GoMap κ ν) (k j : κ) (v : ν) :
    j ∈ (m.set k v).map Prod.fst ↔ j ∈ m.map Prod.fst ∨ j = k := by
  rw [GoMap.keys_set]
  by_cases h : k ∈ m.map Prod.fst
  · rw [if_pos h]
    constructor
    · exact fun hj => Or.inl hj
    · rintro (hj | hj)
      · exact hj
      · exact hj ▸ h
  · rw [if_neg h]
    simp

theorem GoMap.nodup_keys_set {κ ν : Type} [DecidableEq κ] (m : GoMap κ ν) (k : κ) (v : ν)
    (h : (m.map Prod.fst).Nodup) : ((m.set k v).map Prod.fst).Nodup := by
  rw [GoMap.keys_set]
  by_cases hk : k ∈ m.map Prod.fst
  · rw [if_pos hk]; exact h
  · rw [if_neg hk]
    rw [List.nodup_append]
    refine ⟨h, List.nodup_singleton k, ?_⟩
    intro a ha hb
    rw [List.mem_singleton] at hb
    exact hk (hb ▸ ha)

theorem GoMap.get?_of_mem {κ ν : Type} [DecidableEq κ] (m : GoMap κ ν) (k : κ) (v : ν)
    (hnd : (m.map Prod.fst).Nodup) (h : (k, v) ∈ m) : m.get? k = some v := by
  induction m with
  | nil => simp at h
  | cons e rest ih =>
    obtain ⟨k1, v1⟩ := e
    rw [List.map_cons, List.nodup_cons] at hnd
    rcases List.mem_cons.mp h with h1 | h1
    · cases h1
      simp [GoMap.get?]
    · have hne : k1 ≠ k := by
        intro e
        apply hnd.1
        rw [e]
        exact List.mem_map.mpr ⟨(k, v), h1, rfl⟩
      simp [GoMap.get?, hne, ih hnd.2 h1]

theorem GoMap.mem_of_get? {κ ν : Type} [DecidableEq κ] (m : GoMap κ ν) (k : κ) (v : ν)
    (h : m.get? k = some v) : (k, v) ∈ m := by
  induction m with
  | nil => simp [GoMap.get?] at h
  | cons e rest ih =>
    obtain ⟨k1, v1⟩ := e
    by_cases h1 : k1 = k
    · simp [GoMap.get?, h1] at h
      simp [h1, h]
    · simp [GoMap.get?, h1] at h
      exact List.mem_cons_of_mem _ (ih h)

/-! ## Helper lemmas: the passing map -/

theorem addCheck_get? (m : GoMap GoString (GoMap GoString Bool)) (c : HealthCheck)
    (j : GoString) :
    (addCheck m c).get? j
      = if j = c.ServiceName then
          some (((m.get? c.ServiceName).getD []).set (instanceID c.Node c.ServiceID) true)
        else m.get? j := by
  unfold addCheck
  by_cases hj : j = c.ServiceName
  · subst hj
    rw [if_pos rfl, GoMap.get?_set_self]
    cases h : m.get? c.ServiceName with
    | none => simp [GoMap.get?_set_self]
    | some p => simp [h]
  · rw [if_neg hj]
    have hne : c.ServiceName ≠ j := fun e => hj e.symm
    rw [GoMap.get?_set_ne _ _ _ _ hne]
    cases h : m.get? c.ServiceName with
    | none => simp [GoMap.get?_set_ne _ _ _ _ hne]
    | some p => simp

theorem addCheck_mem_keys (m : GoMap GoString (GoMap GoString Bool)) (c : HealthCheck)
    (j : GoString) :
    j ∈ (addCheck m c).map Prod.fst ↔ j ∈ m.map Prod.fst ∨ j = c.ServiceName := by
  rw [← GoMap.get?_isSome_iff, addCheck_get?, ← GoMap.get?_isSome_iff]
  by_cases hj : j = c.ServiceName
  · simp [hj]
  · simp [hj]

theorem addCheck_nodup (m : GoMap GoString (GoMap GoString Bool)) (c : HealthCheck)
    (h : (m.map Prod.fst).Nodup) : ((addCheck m c).map Prod.fst).Nodup := by
  unfold addCheck
  apply GoMap.nodup_keys_set
  cases hg : m.get? c.ServiceName with
  | none => exact GoMap.nodup_keys_set _ _ _ h
  | some p => exact h

theorem addCheck_inv (m : GoMap GoString (GoMap GoString Bool)) (done : List HealthCheck)
    (c : HealthCheck) (h : PassingInv m done) : PassingInv (addCheck m c) (done ++ [c]) := by
  obtain ⟨hnd, hkeys, hids⟩ := h
  refine ⟨addCheck_nodup m c hnd, ?_, ?_⟩
  · intro name
    rw [addCheck_mem_keys, hkeys]
    constructor
    · rintro (⟨d, hd, hdn⟩ | hn)
      · exact ⟨d, List.mem_append_left _ hd, hdn⟩
      · exact ⟨c, by simp, hn.symm⟩
    · rintro ⟨d, hd, hdn⟩
      rcases List.mem_append.mp hd with hd | hd
      · exact Or.inl ⟨d, hd, hdn⟩
      · rw [List.mem_singleton] at hd
        subst hd
        exact Or.inr hdn.symm
  · intro name p hp id
    rw [addCheck_get?] at hp
    by_cases hn : name = c.ServiceName
    · rw [if_pos hn] at hp
      have hp2 := (Option.some.inj hp).symm
      subst hp2
      rw [GoMap.mem_keys_set]
      have hold : id ∈ ((m.get? c.ServiceName).getD []).map Prod.fst ↔
          ∃ d ∈ done, d.ServiceName = name ∧ instanceID d.Node d.ServiceID = id := by
        cases hg : m.get? c.ServiceName with
        | none =>
          have hnone := (GoMap.get?_eq_none_iff m c.ServiceName).mp hg
          rw [hkeys] at hnone
          simp only [Option.getD_none, List.map_nil, List.not_mem_nil, false_iff]
          rintro ⟨d, hd, hdn, -⟩
          exact hnone ⟨d, hd, hdn.trans hn⟩
        | some q =>
          simp only [Option.getD_some]
          rw [hids c.ServiceName q hg id, hn]
      rw [hold]
      constructor
      · rintro (⟨d, hd, hdn, hdi⟩ | hi)
        · exact ⟨d, List.mem_append_left _ hd, hdn, hdi⟩
        · exact ⟨c, by simp, hn.symm, hi.symm⟩
      · rintro ⟨d, hd, hdn, hdi⟩
        rcases List.mem_append.mp hd with hd | hd
        · exact Or.inl ⟨d, hd, hdn, hdi⟩
        · rw [List.mem_singleton] at hd
          subst hd
          exact Or.inr hdi.symm
    · rw [if_neg hn] at hp
      rw [hids name p hp id]
      constructor
      · rintro ⟨d, hd, hdn, hdi⟩
        exact ⟨d, List.mem_append_left _ hd, hdn, hdi⟩
      · rintro ⟨d, hd, hdn, hdi⟩
        rcases List.mem_append.mp hd with hd | hd
        · exact ⟨d, hd, hdn, hdi⟩
        · rw [List.mem_singleton] at hd
          subst hd
          exact absurd hdn.symm hn

theorem foldl_addCheck_inv (cs done : List HealthCheck)
    (m : GoMap GoString (GoMap GoString Bool)) (h : PassingInv m done) :
    PassingInv (cs.foldl addCheck m) (done ++ cs) := by
  induction cs generalizing m done with
  | nil => simpa using h
  | cons c cs ih =>
    have h2 := ih (done ++ [c]) (addCheck m c) (addCheck_inv m done c h)
    simpa [List.append_assoc] using h2

theorem passingMap_inv (checks : List HealthCheck) :
    PassingInv (passingMap checks) checks := by
  have h0 : PassingInv [] [] := by
    refine ⟨by simp, by simp, ?_⟩
    intro name p hp
    simp [GoMap.get?] at hp
  have h := foldl_addCheck_inv checks [] [] h0
  simpa [passingMap] using h

/-! ## Helper lemmas: serviceConfig, the schedule, the sort -/

theorem foldl_svcStep (w : ServiceMonitor) (build : routecmd → List GoString)
    (passing : GoMap GoString Bool) (svcs : List CatalogService) (acc : List GoString) :
    svcs.foldl (svcStep w build passing) acc
      = acc ++ (svcs.filter (fun svc =>
            (passing.get? (instanceID svc.Node svc.ServiceID)).isSome)).flatMap
          (fun svc => build { svc := svc, env := [(lit "DC", w.dc)],
                              pfx := w.config.TagPrefix }) := by
  induction svcs generalizing acc with
  | nil => simp
  | cons svc rest ih =>
    rw [List.foldl_cons, ih]
    unfold svcStep
    cases h : passing.get? (instanceID svc.Node svc.ServiceID) with
    | none => simp [List.filter_cons, h]
    | some b => simp [List.filter_cons, h, List.append_assoc]

theorem any_check_iff (checks : List HealthCheck) (name id : GoString) :
    checks.any (fun c => decide (c.ServiceName = name)
        && decide (instanceID c.Node c.ServiceID = id)) = true
      ↔ ∃ c ∈ checks, c.ServiceName = name ∧ instanceID c.Node c.ServiceID = id := by
  simp [List.any_eq_true]

theorem serviceConfig_eq_linesOf (w : ServiceMonitor) (build : routecmd → List GoString)
    (catalog : Catalog) (m : GoMap GoString (GoMap GoString Bool))
    (checks : List HealthCheck) (h : PassingInv m checks) (name : GoString)
    (p : GoMap GoString Bool) (hp : m.get? name = some p) :
    serviceConfig w build catalog name p = linesOf w build catalog checks name := by
  obtain ⟨-, hkeys, hids⟩ := h
  have hmem : name ∈ m.map Prod.fst := by
    rw [← GoMap.get?_isSome_iff, hp]; rfl
  obtain ⟨c, hc, hcn⟩ := (hkeys name).mp hmem
  have hne : p.length ≠ 0 := by
    have hin : instanceID c.Node c.ServiceID ∈ p.map Prod.fst :=
      (hids name p hp _).mpr ⟨c, hc, hcn, rfl⟩
    intro h0
    rw [List.length_eq_zero] at h0
    rw [h0] at hin
    simp at hin
  unfold serviceConfig linesOf
  by_cases hn : name = []
  · simp [hn]
  · simp only [hn, hne, or_self, if_false]
    cases hcat : catalog name with
    | error e => rfl
    | ok svcs =>
      simp only []
      rw [foldl_svcStep, List.nil_append]
      congr 1
      apply List.filter_congr
      intro svc _
      rw [Bool.eq_iff_iff, GoMap.get?_isSome_iff, hids name p hp, any_check_iff]

theorem linesOf_congr (w : ServiceMonitor) (build : routecmd → List GoString)
    (catalog : Catalog) (cs1 cs2 : List HealthCheck) (h : ∀ c, c ∈ cs1 ↔ c ∈ cs2)
    (name : GoString) :
    linesOf w build catalog cs1 name = linesOf w build catalog cs2 name := by
  unfold linesOf
  by_cases hn : name = []
  · simp [hn]
  · simp only [hn, if_false]
    cases hcat : catalog name with
    | error e => rfl
    | ok svcs =>
      simp only []
      congr 1
      apply List.filter_congr
      intro svc _
      rw [Bool.eq_iff_iff, any_check_iff, any_check_iff]
      constructor
      · rintro ⟨c, hc, h1, h2⟩
        exact ⟨c, (h c).mp hc, h1, h2⟩
      · rintro ⟨c, hc, h1, h2⟩
        exact ⟨c, (h c).mpr hc, h1, h2⟩

theorem getD_cons_eraseIdx_perm {α : Type} (l : List α) (k : Nat) (d : α)
    (hk : k < l.length) : (l.getD k d :: l.eraseIdx k).Perm l := by
  induction l generalizing k with
  | nil => simp at hk
  | cons x xs ih =>
    cases k with
    | zero => simp
    | succ k =>
      have hk2 : k < xs.length := by simpa using hk
      have h := ih k hk2
      simp only [List.getD_cons_succ, List.eraseIdx_cons_succ]
      exact (List.Perm.swap x (xs.getD k d) (xs.eraseIdx k)).trans (h.cons x)

theorem deliverGo_perm {α : Type} (fuel : Nat) (sched : List Nat) (l : List α)
    (h : l.length = fuel) : (deliverGo fuel sched l).Perm l := by
  induction fuel generalizing sched l with
  | zero =>
    rw [List.length_eq_zero] at h
    subst h
    simp [deliverGo]
  | succ n ih =>
    cases l with
    | nil => simp at h
    | cons x xs =>
      have hlt : sched.headD 0 % (xs.length + 1) < (x :: xs).length := by
        simpa using Nat.mod_lt _ (Nat.succ_pos _)
      have hlen : ((x :: xs).eraseIdx (sched.headD 0 % (xs.length + 1))).length = n := by
        rw [List.length_eraseIdx, if_pos hlt]
        simpa using h
      simp only [deliverGo]
      exact ((ih sched.tail _ hlen).cons _).trans (getD_cons_eraseIdx_perm _ _ _ hlt)

theorem deliver_perm {α : Type} (sched : List Nat) (l : List α) :
    (deliver sched l).Perm l :=
  deliverGo_perm l.length sched l rfl

theorem foldl_append_flatMap {α β : Type} (f : α → List β) (l : List α) (acc : List β) :
    l.foldl (fun config e => config ++ f e) acc = acc ++ l.flatMap f := by
  induction l generalizing acc with
  | nil => simp
  | cons a rest ih => simp [ih, List.append_assoc]

theorem gather_perm (w : ServiceMonitor) (build : routecmd → List GoString)
    (catalog : Catalog) (sched : List Nat) (m : GoMap GoString (GoMap GoString Bool)) :
    (gather w build catalog sched m).Perm
      (m.flatMap (fun e => serviceConfig w build catalog e.1 e.2)) := by
  unfold gather
  rw [foldl_append_flatMap, List.nil_append]
  exact List.Perm.flatMap_right _ (deliver_perm sched m)

theorem sortReverse_perm (config : List GoString) : (sortReverse config).Perm config :=
  List.perm_insertionSort _ config

theorem sortReverse_sorted (config : List GoString) :
    (sortReverse config).Sorted (fun a b => b ≤ a) :=
  List.sorted_insertionSort (fun a b : GoString => b ≤ a) config

theorem sortReverse_congr (c1 c2 : List GoString) (h : c1.Perm c2) :
    sortReverse c1 = sortReverse c2 :=
  List.eq_of_perm_of_sorted
    (((sortReverse_perm c1).trans h).trans (sortReverse_perm c2).symm)
    (sortReverse_sorted c1) (sortReverse_sorted c2)

theorem flatMap_serviceConfig_eq (w : ServiceMonitor) (build : routecmd → List GoString)
    (catalog : Catalog) (checks : List HealthCheck) :
    (passingMap checks).flatMap (fun e => serviceConfig w build catalog e.1 e.2)
      = ((passingMap checks).map Prod.fst).flatMap (linesOf w build catalog checks) := by
  have hinv := passingMap_inv checks
  rw [List.flatMap_map]
  apply List.flatMap_congr
  intro e he
  exact serviceConfig_eq_linesOf w build catalog _ checks hinv e.1 e.2
    (GoMap.get?_of_mem _ _ _ hinv.1 he)

/-! ## Helper lemmas: Watch -/

theorem Watch_append (w : ServiceMonitor) (build : routecmd → List GoString)
    (passingServices : List HealthCheck → List GoString → Bool → List HealthCheck)
    (rounds : List Round) (r : Round) :
    Watch w build passingServices (rounds ++ [r])
      = watchStep w build passingServices (Watch w build passingServices rounds) r := by
  simp [Watch, List.foldl_append]

theorem lastIndexAfter_append (rounds : List Round) (r : Round) :
    lastIndexAfter (rounds ++ [r])
      = match r.health with
        | .ok (_, meta) => meta.LastIndex
        | .error _ => lastIndexAfter rounds := by
  unfold lastIndexAfter
  rw [List.filterMap_append]
  cases hr : r.health with
  | error e => simp [okIndex, hr]
  | ok a =>
    obtain ⟨checks, meta⟩ := a
    simp [okIndex, hr]

theorem range_map_take_append (rounds : List Round) (r : Round) (f : List Round → QueryOptions) :
    (List.range (rounds ++ [r]).length).map (fun i => f ((rounds ++ [r]).take i))
      = (List.range rounds.length).map (fun i => f (rounds.take i)) ++ [f rounds] := by
  rw [List.length_append, List.length_singleton, List.range_succ, List.map_append]
  congr 1
  · apply List.map_congr_left
    intro i hi
    rw [List.mem_range] at hi
    rw [List.take_append_of_le_length (Nat.le_of_lt hi)]
  · simp

theorem Watch_state (w : ServiceMonitor) (build : routecmd → List GoString)
    (passingServices : List HealthCheck → List GoString → Bool → List HealthCheck)
    (rounds : List Round) :
    (Watch w build passingServices rounds).lastIndex = lastIndexAfter rounds
    ∧ (Watch w build passingServices rounds).updates
        = rounds.filterMap (snapshotOf w build passingServices)
    ∧ (Watch w build passingServices rounds).queries
        = (List.range rounds.length).map
            (fun i => watchQuery w (lastIndexAfter (rounds.take i))) := by
  induction rounds using List.reverseRecOn with
  | nil => simp [Watch, lastIndexAfter]
  | append_singleton rounds r ih =>
    obtain ⟨h1, h2, h3⟩ := ih
    rw [Watch_append, lastIndexAfter_append, List.filterMap_append,
      range_map_take_append rounds r (fun l => watchQuery w (lastIndexAfter l))]
    unfold watchStep
    cases hr : r.health with
    | error e => simp [h1, h2, h3, snapshotOf, hr]
    | ok a =>
      obtain ⟨checks, meta⟩ := a
      simp [h1, h2, h3, snapshotOf, hr]

/-! ## Helper lemmas: ServeTCP -/

theorem serveBody_parsed (p : SNIProxy)
    (clientHelloBufferSize : List Nat → Except GoString Int)
    (readServerName : List Nat → GoString × Bool) (env : ConnEnv) (b : Int)
    (hlen : 9 ≤ env.inbound.length)
    (hbs : clientHelloBufferSize (env.inbound.take 9) = .ok b)
    (hb5 : 5 ≤ b) (hbl : b.toNat ≤ env.inbound.length) :
    serveBody p clientHelloBufferSize readServerName env
      = serveHost p env (accepted p) (env.inbound.take b.toNat)
          (readServerName ((env.inbound.take b.toNat).drop 5)).1
          (readServerName ((env.inbound.take b.toNat).drop 5)).2 := by
  have h1 : ¬ env.inbound.length < 9 := Nat.not_lt.mpr hlen
  have h2 : ¬ b < 0 := by omega
  have h3 : ¬ env.inbound.length < b.toNat := Nat.not_lt.mpr hbl
  have h4 : ¬ (env.inbound.take b.toNat).length < 5 := by
    rw [List.length_take, Nat.min_eq_left hbl]
    omega
  unfold serveBody
  simp only [h1, h2, h3, h4, hbs, if_false]

theorem serveUpstream_upstream (env : ConnEnv) (s : Served) (t : Target) (out : Upstream)
    (data : List Nat) (hhdr : t.ProxyProto = true → out.proxyHeader.2 = none)
    (hwrite : out.helloWrite = none) :
    (serveUpstream env s t out data).upstream
      = s.upstream ++ (if t.ProxyProto then out.proxyHeader.1 else []) ++ data
          ++ env.fromClient := by
  unfold serveUpstream
  cases hpp : t.ProxyProto with
  | false =>
    simp only [hwrite, Bool.false_eq_true, if_false]
    cases env.spliceErr with
    | none => simp [copyBuffer]
    | some e => by_cases he : e = EOF <;> simp [copyBuffer, he]
  | true =>
    have h := hhdr hpp
    simp only [hwrite, if_true, h]
    cases env.spliceErr with
    | none => simp [copyBuffer]
    | some e => by_cases he : e = EOF <;> simp [copyBuffer, he]

/-! ## Helper lemmas: every order of arrival is a schedule -/

theorem deliverGo_cons {α : Type} (k : Nat) (sched : List Nat) (x : α) (xs : List α)
    (hk : k < (x :: xs).length) :
    deliver (k :: sched) (x :: xs)
      = (x :: xs).getD k x :: deliver sched ((x :: xs).eraseIdx k) := by
  have hmod : k % (xs.length + 1) = k := Nat.mod_eq_of_lt (by simpa using hk)
  have hlen : ((x :: xs).eraseIdx k).length = xs.length := by
    rw [List.length_eraseIdx, if_pos hk]
    simp
  unfold deliver
  rw [hlen]
  simp only [List.length_cons, deliverGo, List.headD_cons, List.tail_cons, hmod]

theorem deliver_complete {α : Type} (arrival l : List α) (h : arrival.Perm l) :
    ∃ sched : List Nat, deliver sched l = arrival := by
  induction arrival generalizing l with
  | nil =>
    have hl : l = [] := (List.Perm.nil_eq h).symm
    subst hl
    exact ⟨[], rfl⟩
  | cons a t ih =>
    have ha : a ∈ l := h.subset (List.mem_cons_self a t)
    obtain ⟨k, hk, hka⟩ := List.getElem_of_mem ha
    cases l with
    | nil => simp at ha
    | cons x xs =>
      have hget : (x :: xs).getD k x = a := by
        rw [List.getD_eq_getElem _ _ hk, hka]
      have hperm : t.Perm ((x :: xs).eraseIdx k) := by
        have h1 := getD_cons_eraseIdx_perm (x :: xs) k x hk
        rw [hget] at h1
        exact (List.Perm.cons_inv (h.trans h1.symm))
      obtain ⟨sched, hs⟩ := ih _ hperm
      exact ⟨k :: sched, by rw [deliverGo_cons k sched x xs hk, hget, hs]⟩

/-! ## Theorems -/

/-- C1: for every prefix and every list of health checks,
`checksWithTagPrefix` returns exactly the sub-list (same order, each check
once per occurrence) of the checks whose `CheckID` is `serfHealth`, is
`_node_maintenance`, starts with `_service_maintenance`, or one of whose
service tags starts with the prefix; every other check is dropped. -/
theorem checksWithTagPrefix_eq_filter (pfx : GoString) (checks : List HealthCheck) :
    checksWithTagPrefix pfx checks
      = checks.filter (fun c =>
          decide (c.CheckID = lit "serfHealth")
            || decide (c.CheckID = lit "_node_maintenance")
            || HasPrefix c.CheckID (lit "_service_maintenance")
            || c.ServiceTags.any (fun t => HasPrefix t pfx)) := by
  have h := foldl_checkStep pfx checks []
  simpa [checksWithTagPrefix, retained] using h

/-- C2: for every list of passing checks, every outcome of the catalog
queries and every order of arrival of the worker results, the text returned
by `makeConfig` is a list of lines joined by a newline, where the lines are a
permutation of the concatenation of `serviceConfig` over the entries of the
passing map (one entry per distinct service name of the checks, holding the
ids of the checks of that name) and are in non-increasing order. -/
theorem makeConfig_lines (w : ServiceMonitor) (build : routecmd → List GoString)
    (catalog : Catalog) (sched : List Nat) (checks : List HealthCheck) :
    ∃ lines : List GoString,
      makeConfig w build catalog sched checks = Join lines (lit "\n")
      ∧ lines.Perm
          ((passingMap checks).flatMap (fun e => serviceConfig w build catalog e.1 e.2))
      ∧ lines.Sorted (fun a b => b ≤ a)
      ∧ ((passingMap checks).map Prod.fst).Nodup
      ∧ (∀ name, name ∈ (passingMap checks).map Prod.fst
            ↔ ∃ c ∈ checks, c.ServiceName = name)
      ∧ (∀ name p, (name, p) ∈ passingMap checks →
          ∀ id, (p.get? id).isSome = true
            ↔ ∃ c ∈ checks, c.ServiceName = name
                ∧ instanceID c.Node c.ServiceID = id) := by
  have hinv := passingMap_inv checks
  refine ⟨sortReverse (gather w build catalog sched (passingMap checks)), rfl, ?_, ?_,
    hinv.1, hinv.2.1, ?_⟩
  · exact (sortReverse_perm _).trans (gather_perm w build catalog sched _)
  · exact sortReverse_sorted _
  · intro name p hp id
    rw [GoMap.get?_isSome_iff]
    exact hinv.2.2 name p (GoMap.get?_of_mem _ _ _ hinv.1 hp) id

/-- C3: `makeConfig` is deterministic.  For two lists of checks with the same
elements (in any order, with any repetition), the same catalog answers, and
any two orders of arrival of the worker results, the returned texts are
equal.  By `deliver_complete` every order of the map entries is the arrival
order of some schedule, so this covers every order of map iteration and of
delivery on the channel `cfgs`. -/
theorem makeConfig_deterministic (w : ServiceMonitor) (build : routecmd → List GoString)
    (catalog : Catalog) (sched1 sched2 : List Nat) (checks1 checks2 : List HealthCheck)
    (h : ∀ c, c ∈ checks1 ↔ c ∈ checks2) :
    makeConfig w build catalog sched1 checks1 = makeConfig w build catalog sched2 checks2 := by
  unfold makeConfig
  congr 1
  apply sortReverse_congr
  refine (gather_perm w build catalog sched1 _).trans ?_
  refine List.Perm.trans ?_ (gather_perm w build catalog sched2 _).symm
  rw [flatMap_serviceConfig_eq, flatMap_serviceConfig_eq]
  have h1 := passingMap_inv checks1
  have h2 := passingMap_inv checks2
  have hkeys : ((passingMap checks1).map Prod.fst).Perm ((passingMap checks2).map Prod.fst) := by
    rw [List.perm_ext_iff_of_nodup h1.1 h2.1]
    intro name
    rw [h1.2.1, h2.2.1]
    constructor
    · rintro ⟨c, hc, hn⟩
      exact ⟨c, (h c).mp hc, hn⟩
    · rintro ⟨c, hc, hn⟩
      exact ⟨c, (h c).mpr hc, hn⟩
  refine (List.Perm.flatMap_right _ hkeys).trans ?_
  rw [List.flatMap_congr (fun name _ => linesOf_congr w build catalog checks1 checks2 h name)]

/-- A worked instance of C3: two checks given in both orders, with the two
workers delivering in opposite orders. -/
theorem makeConfig_deterministic_witness :
    (∀ c, c ∈ [sampleCheck "n1" "svc-1" "svc", sampleCheck "n1" "web-1" "web"]
        ↔ c ∈ [sampleCheck "n1" "web-1" "web", sampleCheck "n1" "svc-1" "svc"])
    ∧ makeConfig sampleMonitor sampleBuild sampleCatalog [1]
          [sampleCheck "n1" "svc-1" "svc", sampleCheck "n1" "web-1" "web"]
        = makeConfig sampleMonitor sampleBuild sampleCatalog [0]
          [sampleCheck "n1" "web-1" "web", sampleCheck "n1" "svc-1" "svc"] :=
  ⟨fun c => by simp [or_comm],
   makeConfig_deterministic sampleMonitor sampleBuild sampleCatalog [1] [0] _ _
     (fun c => by simp [or_comm])⟩

/-- C4: for a non-empty service name, a non-empty passing set and a
successful catalog answer `svcs`, `serviceConfig` returns the concatenation,
in catalog order, of `build` over exactly the instances whose id
`Node + "." + ServiceID` is a key of the passing set; when every instance
builds one line, the number of lines is the number of such instances. -/
theorem serviceConfig_passing (w : ServiceMonitor) (build : routecmd → List GoString)
    (catalog : Catalog) (name : GoString) (passing : GoMap GoString Bool)
    (svcs : List CatalogService)
    (hname : name ≠ []) (hpassing : passing ≠ []) (hcat : catalog name = .ok svcs) :
    serviceConfig w build catalog name passing
        = (svcs.filter (fun svc =>
              (passing.get? (instanceID svc.Node svc.ServiceID)).isSome)).flatMap
            (fun svc => build { svc := svc, env := [(lit "DC", w.dc)],
                                pfx := w.config.TagPrefix })
    ∧ ((∀ svc ∈ svcs, (build { svc := svc, env := [(lit "DC", w.dc)],
                               pfx := w.config.TagPrefix }).length = 1) →
        (serviceConfig w build catalog name passing).length
          = svcs.countP (fun svc =>
              (passing.get? (instanceID svc.Node svc.ServiceID)).isSome)) := by
  have hlen : passing.length ≠ 0 := fun h0 => hpassing (List.length_eq_zero.mp h0)
  have heq : serviceConfig w build catalog name passing
        = (svcs.filter (fun svc =>
              (passing.get? (instanceID svc.Node svc.ServiceID)).isSome)).flatMap
            (fun svc => build { svc := svc, env := [(lit "DC", w.dc)],
                                pfx := w.config.TagPrefix }) := by
    unfold serviceConfig
    simp only [hname, hlen, or_self, if_false, hcat]
    rw [foldl_svcStep, List.nil_append]
  refine ⟨heq, ?_⟩
  intro hone
  rw [heq, List.countP_eq_length_filter]
  have hgood : ∀ svc ∈ svcs.filter (fun svc =>
      (passing.get? (instanceID svc.Node svc.ServiceID)).isSome),
      (build { svc := svc, env := [(lit "DC", w.dc)], pfx := w.config.TagPrefix }).length = 1 :=
    fun svc hs => hone svc (List.mem_of_mem_filter hs)
  revert hgood
  generalize svcs.filter (fun svc =>
      (passing.get? (instanceID svc.Node svc.ServiceID)).isSome) = good
  intro hgood
  induction good with
  | nil => simp
  | cons a rest ih =>
    rw [List.flatMap_cons, List.length_append, hgood a (List.mem_cons_self _ _),
      ih (fun svc hs => hgood svc (List.mem_cons_of_mem _ hs)), List.length_cons]
    omega

/-- A worked instance of C4: the catalog has three instances of `svc`, two of
them in the passing set; `serviceConfig` returns exactly two lines. -/
theorem serviceConfig_passing_witness :
    (serviceConfig sampleMonitor sampleBuild sampleCatalog (lit "svc")
        [(lit "n1.svc-1", true), (lit "n3.svc-3", true)]
      = [lit "route add svc foo.com/ n1", lit "route add svc foo.com/ n3"])
    ∧ (serviceConfig sampleMonitor sampleBuild sampleCatalog (lit "svc")
        [(lit "n1.svc-1", true), (lit "n3.svc-3", true)]).length = 2 := by
  have h := serviceConfig_passing sampleMonitor sampleBuild sampleCatalog (lit "svc")
    [(lit "n1.svc-1", true), (lit "n3.svc-3", true)]
    [sampleInstance "n1" "svc-1" "svc", sampleInstance "n2" "svc-2" "svc",
      sampleInstance "n3" "svc-3" "svc"]
    (by decide) (by decide) rfl
  refine ⟨h.1.trans (by decide), ?_⟩
  rw [h.2 (by decide)]
  decide

/-- C10: the instance id is not unique.  The pairs (`a.b`, `c`) and
(`a`, `b.c`) differ but have the same id `a.b.c`; with one passing check for
instance `c` on node `a.b` and a catalog whose only instance is `b.c` on node
`a`, an instance without any check of its own, `makeConfig` emits the route
of that instance. -/
theorem instanceID_collision :
    (lit "a.b", lit "c") ≠ (lit "a", lit "b.c")
    ∧ instanceID (lit "a.b") (lit "c") = instanceID (lit "a") (lit "b.c")
    ∧ makeConfig sampleMonitor sampleBuild collisionCatalog []
        [sampleCheck "a.b" "c" "svc"] = lit "route add svc foo.com/ a" := by
  decide

/-- C9: the `Watch` loop as a step relation on `lastIndex`, started at 0.  An
iteration whose health query fails sends nothing on `updates` and keeps
`lastIndex`; an iteration whose query succeeds sends exactly one snapshot and
sets `lastIndex` to the returned `LastIndex`.  Hence over any run the
snapshots sent are, in order, those of the successful answers, one each, and
when `PollInterval` is 0 the query of every iteration carries as `WaitIndex`
the `LastIndex` of the most recent successful answer before it (0 if none). -/
theorem Watch_steps (w : ServiceMonitor) (build : routecmd → List GoString)
    (passingServices : List HealthCheck → List GoString → Bool → List HealthCheck) :
    (∀ (s : WatchState) (r : Round) (e : GoString), r.health = .error e →
        (watchStep w build passingServices s r).updates = s.updates
        ∧ (watchStep w build passingServices s r).lastIndex = s.lastIndex)
    ∧ (∀ (s : WatchState) (r : Round) (checks : List HealthCheck) (meta : QueryMeta),
        r.health = .ok (checks, meta) →
        (watchStep w build passingServices s r).updates
            = s.updates ++ [makeConfig w build r.catalog r.sched
                (passingServices (checksWithTagPrefix w.config.TagPrefix checks)
                  w.config.ServiceStatus w.strict)]
        ∧ (watchStep w build passingServices s r).lastIndex = meta.LastIndex)
    ∧ (∀ rounds : List Round,
        (Watch w build passingServices rounds).updates
          = rounds.filterMap (snapshotOf w build passingServices))
    ∧ (w.config.PollInterval = 0 → ∀ rounds : List Round,
        (Watch w build passingServices rounds).queries.map (fun q => q.WaitIndex)
          = (List.range rounds.length).map (fun i => lastIndexAfter (rounds.take i))) := by
  refine ⟨?_, ?_, ?_, ?_⟩
  · intro s r e he
    simp [watchStep, he]
  · intro s r checks meta hok
    simp [watchStep, hok]
  · intro rounds
    exact (Watch_state w build passingServices rounds).2.1
  · intro hpoll rounds
    rw [(Watch_state w build passingServices rounds).2.2, List.map_map]
    apply List.map_congr_left
    intro i _
    simp [watchQuery, hpoll]

/-- A worked instance of C9: a failed query, a success at index 7, a failed
query and a success at index 9.  The four queries wait on 0, 0, 7 and 7, and
two snapshots are sent. -/
theorem Watch_steps_witness :
    sampleMonitor.config.PollInterval = 0
    ∧ (Watch sampleMonitor sampleBuild samplePassing
          [failedRound, okRound 7, failedRound, okRound 9]).queries.map (fun q => q.WaitIndex)
        = [0, 0, 7, 7]
    ∧ (Watch sampleMonitor sampleBuild samplePassing
          [failedRound, okRound 7, failedRound, okRound 9]).updates
        = [lit "route add svc foo.com/ n1", lit "route add svc foo.com/ n1"] :=
  ⟨rfl,
   ((Watch_steps sampleMonitor sampleBuild samplePassing).2.2.2 rfl
      [failedRound, okRound 7, failedRound, okRound 9]).trans (by decide),
   ((Watch_steps sampleMonitor sampleBuild samplePassing).2.2.1
      [failedRound, okRound 7, failedRound, okRound 9]).trans (by decide)⟩

/-- C5, as stated, fails for a target with the PROXY protocol: the dial
succeeds and `ServeTCP` returns nil, but the bytes delivered to the upstream
begin with the PROXY header, not with the bytes read from the inbound
connection, which follow it. -/
theorem ServeTCP_proxyProto_header_first :
    (ServeTCP proxyProtoProxy sampleBufferSize sampleServerName (sampleEnv helloFoo)).dials
        = [lit "10.0.0.1:443"]
    ∧ (ServeTCP proxyProtoProxy sampleBufferSize sampleServerName (sampleEnv helloFoo)).ret
        = Ret.nil
    ∧ ¬ (helloFoo <+:
          (ServeTCP proxyProtoProxy sampleBufferSize sampleServerName
            (sampleEnv helloFoo)).upstream)
    ∧ (ServeTCP proxyProtoProxy sampleBufferSize sampleServerName (sampleEnv helloFoo)).upstream
        = lit "PROXY TCP4 1.2.3.4 5.6.7.8 1 2\r\n" ++ helloFoo ++ [7, 8, 9] := by
  decide

/-- C5, amended: on every connection that reaches a successful dial and on
which the PROXY header (when the target asks for one) and the ClientHello are
written without error, the bytes delivered to the upstream are the PROXY
header, if any, then the exact `bufferSize` bytes read from the inbound
connection, then the bytes copied from the client; for a target without the
PROXY protocol they begin with the bytes read. -/
theorem ServeTCP_replay (p : SNIProxy)
    (clientHelloBufferSize : List Nat → Except GoString Int)
    (readServerName : List Nat → GoString × Bool) (env : ConnEnv) (b : Int)
    (host : GoString) (t : Target) (out : Upstream)
    (hlen : 9 ≤ env.inbound.length)
    (hbs : clientHelloBufferSize (env.inbound.take 9) = .ok b)
    (hb5 : 5 ≤ b) (hbl : b.toNat ≤ env.inbound.length)
    (hsn : readServerName ((env.inbound.take b.toNat).drop 5) = (host, true))
    (hhost : host ≠ []) (hlook : p.Lookup host = some t)
    (hacl : env.accessDenied t = false) (hdial : env.dial t.Host = .ok out)
    (hhdr : t.ProxyProto = true → out.proxyHeader.2 = none)
    (hwrite : out.helloWrite = none) :
    (ServeTCP p clientHelloBufferSize readServerName env).upstream
        = (if t.ProxyProto then out.proxyHeader.1 else []) ++ env.inbound.take b.toNat
            ++ env.fromClient
    ∧ (t.ProxyProto = false →
        env.inbound.take b.toNat
          <+: (ServeTCP p clientHelloBufferSize readServerName env).upstream) := by
  have hup : (ServeTCP p clientHelloBufferSize readServerName env).upstream
        = (if t.ProxyProto then out.proxyHeader.1 else []) ++ env.inbound.take b.toNat
            ++ env.fromClient := by
    unfold ServeTCP
    rw [serveBody_parsed p clientHelloBufferSize readServerName env b hlen hbs hb5 hbl, hsn]
    unfold serveHost
    simp only [Bool.not_true, Bool.false_eq_true, if_false, hhost, hlook, hacl, hdial]
    rw [serveUpstream_upstream env _ t out _ hhdr hwrite]
    simp [accepted]
  refine ⟨hup, ?_⟩
  intro hpp
  rw [hup, hpp]
  simp

/-- A worked instance of the amended C5: the 12 bytes of the record with
server name `foo` are the first bytes the upstream receives. -/
theorem ServeTCP_replay_witness :
    helloFoo
      <+: (ServeTCP sampleProxy sampleBufferSize sampleServerName (sampleEnv helloFoo)).upstream :=
  (ServeTCP_replay sampleProxy sampleBufferSize sampleServerName (sampleEnv helloFoo) 12
    (lit "foo") sampleTarget sampleUpstream (by decide) rfl (by decide) (by decide)
    (by decide) (by decide) (by decide) (by decide) rfl (by decide) (by decide)).2 rfl

/-- C6: what the code does in the splicing phase.  The client sends a
ClientHello of 12 bytes and then 3 bytes, the upstream sends 5 bytes.
Afterwards `RxCounter` is 17, the 12 bytes of the ClientHello plus the 5
bytes copied from the upstream to the client, and `TxCounter` is 3, the
bytes copied from the client to the upstream; 15 bytes went from the client
to the upstream. -/
theorem ServeTCP_counters :
    (ServeTCP sampleProxy sampleBufferSize sampleServerName (sampleEnv helloFoo)).target
        = some { sampleTarget with RxCounter := some 17, TxCounter := some 3 }
    ∧ (ServeTCP sampleProxy sampleBufferSize sampleServerName (sampleEnv helloFoo)).upstream
        = helloFoo ++ [7, 8, 9]
    ∧ (ServeTCP sampleProxy sampleBufferSize sampleServerName (sampleEnv helloFoo)).downstream
        = [1, 2, 3, 4, 5]
    ∧ (helloFoo ++ [7, 8, 9]).length = 15 := by
  decide

/-- C7: on every inbound connection whose record is read in full and for
which `readServerName` fails or returns the empty name, `ServeTCP` returns
nil, adds exactly 1 to `ConnFail` (a nil counter, which has nothing to
count into, stays nil), leaves `Noroute` unchanged, calls neither `Lookup`
nor the dialer, writes nothing upstream and closes the inbound connection. -/
theorem ServeTCP_no_server_name (p : SNIProxy)
    (clientHelloBufferSize : List Nat → Except GoString Int)
    (readServerName : List Nat → GoString × Bool) (env : ConnEnv) (b : Int)
    (host : GoString) (ok : Bool)
    (hlen : 9 ≤ env.inbound.length)
    (hbs : clientHelloBufferSize (env.inbound.take 9) = .ok b)
    (hb5 : 5 ≤ b) (hbl : b.toNat ≤ env.inbound.length)
    (hsn : readServerName ((env.inbound.take b.toNat).drop 5) = (host, ok))
    (hfail : ok = false ∨ host = []) :
    (ServeTCP p clientHelloBufferSize readServerName env).ret = Ret.nil
    ∧ (ServeTCP p clientHelloBufferSize readServerName env).ConnFail
        = p.ConnFail.map (fun v => v + 1)
    ∧ (ServeTCP p clientHelloBufferSize readServerName env).Noroute = p.Noroute
    ∧ (ServeTCP p clientHelloBufferSize readServerName env).lookups = []
    ∧ (ServeTCP p clientHelloBufferSize readServerName env).dials = []
    ∧ (ServeTCP p clientHelloBufferSize readServerName env).upstream = []
    ∧ (ServeTCP p clientHelloBufferSize readServerName env).inClosed = true := by
  have hc : addCounter p.ConnFail 1 = p.ConnFail.map (fun v => v + 1) := by
    cases p.ConnFail <;> rfl
  unfold ServeTCP
  rw [serveBody_parsed p clientHelloBufferSize readServerName env b hlen hbs hb5 hbl, hsn]
  unfold serveHost
  rcases hfail with h | h
  · subst h
    simp [connFail, accepted, hc]
  · subst h
    cases ok <;> simp [connFail, accepted, hc]

/-- A worked instance of C7: a record with an empty server name and a record
that is not a client hello; each leaves `ConnFail` at 1 and `Noroute` at 0. -/
theorem ServeTCP_no_server_name_witness :
    (ServeTCP sampleProxy sampleBufferSize sampleServerName (sampleEnv helloNoName)).ConnFail
        = some 1
    ∧ (ServeTCP sampleProxy sampleBufferSize sampleServerName (sampleEnv helloBad)).ConnFail
        = some 1
    ∧ (ServeTCP sampleProxy sampleBufferSize sampleServerName (sampleEnv helloBad)).Noroute
        = some 0 :=
  ⟨(ServeTCP_no_server_name sampleProxy sampleBufferSize sampleServerName
      (sampleEnv helloNoName) 9 [] true (by decide) rfl (by decide) (by decide)
      (by decide) (Or.inr rfl)).2.1,
   (ServeTCP_no_server_name sampleProxy sampleBufferSize sampleServerName
      (sampleEnv helloBad) 9 [] false (by decide) rfl (by decide) (by decide)
      (by decide) (Or.inl rfl)).2.1,
   (ServeTCP_no_server_name sampleProxy sampleBufferSize sampleServerName
      (sampleEnv helloBad) 9 [] false (by decide) rfl (by decide) (by decide)
      (by decide) (Or.inl rfl)).2.2.1⟩

/-- C8: on every inbound connection with a parsed, non-empty server name for
which `Lookup` returns nil, `ServeTCP` returns nil, adds exactly 1 to
`Noroute` (a nil counter stays nil), leaves `ConnFail` unchanged, calls
`Lookup` once, does not dial and closes the inbound connection. -/
theorem ServeTCP_noroute (p : SNIProxy)
    (clientHelloBufferSize : List Nat → Except GoString Int)
    (readServerName : List Nat → GoString × Bool) (env : ConnEnv) (b : Int)
    (host : GoString)
    (hlen : 9 ≤ env.inbound.length)
    (hbs : clientHelloBufferSize (env.inbound.take 9) = .ok b)
    (hb5 : 5 ≤ b) (hbl : b.toNat ≤ env.inbound.length)
    (hsn : readServerName ((env.inbound.take b.toNat).drop 5) = (host, true))
    (hhost : host ≠ []) (hlook : p.Lookup host = none) :
    (ServeTCP p clientHelloBufferSize readServerName env).ret = Ret.nil
    ∧ (ServeTCP p clientHelloBufferSize readServerName env).Noroute
        = p.Noroute.map (fun v => v + 1)
    ∧ (ServeTCP p clientHelloBufferSize readServerName env).ConnFail = p.ConnFail
    ∧ (ServeTCP p clientHelloBufferSize readServerName env).lookups = [host]
    ∧ (ServeTCP p clientHelloBufferSize readServerName env).dials = []
    ∧ (ServeTCP p clientHelloBufferSize readServerName env).upstream = []
    ∧ (ServeTCP p clientHelloBufferSize readServerName env).inClosed = true := by
  have hc : addCounter p.Noroute 1 = p.Noroute.map (fun v => v + 1) := by
    cases p.Noroute <;> rfl
  unfold ServeTCP
  rw [serveBody_parsed p clientHelloBufferSize readServerName env b hlen hbs hb5 hbl, hsn]
  unfold serveHost
  simp [hhost, hlook, accepted, hc]

/-- A worked instance of C8: the server name `bar` has no route; `Noroute`
goes to 1, `ConnFail` stays 0 and nothing is dialled. -/
theorem ServeTCP_noroute_witness :
    (ServeTCP sampleProxy sampleBufferSize sampleServerName (sampleEnv helloBar)).Noroute
        = some 1
    ∧ (ServeTCP sampleProxy sampleBufferSize sampleServerName (sampleEnv helloBar)).ConnFail
        = some 0
    ∧ (ServeTCP sampleProxy sampleBufferSize sampleServerName (sampleEnv helloBar)).dials = [] :=
  ⟨(ServeTCP_noroute sampleProxy sampleBufferSize sampleServerName (sampleEnv helloBar) 12
      (lit "bar") (by decide) rfl (by decide) (by decide) (by decide) (by decide)
      (by decide)).2.1,
   (ServeTCP_noroute sampleProxy sampleBufferSize sampleServerName (sampleEnv helloBar) 12
      (lit "bar") (by decide) rfl (by decide) (by decide) (by decide) (by decide)
      (by decide)).2.2.1,
   (ServeTCP_noroute sampleProxy sampleBufferSize sampleServerName (sampleEnv helloBar) 12
      (lit "bar") (by decide) rfl (by decide) (by decide) (by decide) (by decide)
      (by decide)).2.2.2.2.1⟩

end Fabio
